import Mathlib

/-
Verification development for the `proxmox_vm_info` Ansible module
(`plugins/modules/proxmox_vm_info.py`).

The module queries a Proxmox VE cluster and normalizes each VM's raw
configuration mapping into a record with `disks` / `nets` sub-lists.
This file gives a shallow embedding of that logic:

* Python `dict`s (string keys, mixed scalar values, insertion ordered)
  become association lists `List (String × Value)` with Python assignment
  / deletion / `update` semantics (`ainsert`, `adel`, `aupdate`).
* The three regular expressions of the module are hand-translated into
  decidable Boolean matchers (`disk_key_match`, `net_key_match`,
  `disk_value_match`).
* `str.split` becomes `pysplit`; fallible indexing / tuple unpacking is
  modelled in the `Option` monad, a `none` being a caught Python
  exception.
* The remote API is a black box `Cluster` record; a failed HTTP request
  is a `none` answer, turned into an Ansible `fail_json` (`MResult.fail`).
-/

namespace PVI

/-- A scalar configuration value as returned by the Proxmox API: a string
or a JSON number.  `recs` is the list-of-flat-records shape the module
itself creates for the `disks` / `nets` fields. -/
inductive Value where
  | str : String → Value
  | num : Int → Value
  | recs : List (List (String × String)) → Value
deriving DecidableEq

/-- A Python dict with string keys, in insertion order. -/
abbrev Dict := List (String × Value)

/-- One parsed disk / network record (`item` in the Python source): all
its values are strings. -/
abbrev Item := List (String × String)

/-- `m[k]` lookup (first entry with key `k`). -/
def aget {α : Type} (k : String) (m : List (String × α)) : Option α :=
  match m with
  | [] => none
  | (k1, v1) :: rest => if k1 == k then some v1 else aget k rest

/-- Python dict assignment `m[k] = v`: replace the value in place if the
key exists, else append the new entry at the end. -/
def ainsert {α : Type} (k : String) (v : α) (m : List (String × α)) : List (String × α) :=
  match m with
  | [] => [(k, v)]
  | (k1, v1) :: rest => if k1 == k then (k, v) :: rest else (k1, v1) :: ainsert k v rest

/-- Python `del m[k]`. -/
def adel {α : Type} (k : String) (m : List (String × α)) : List (String × α) :=
  m.filter (fun p => p.1 != k)

/-- Python `m.update(other)`: assign every entry of `other`, in order. -/
def aupdate {α : Type} (m other : List (String × α)) : List (String × α) :=
  other.foldl (fun acc kv => ainsert kv.1 kv.2 acc) m

/-- Character range test, as in a regex class like `[0-9]`. -/
def charIn (lo hi c : Char) : Bool :=
  decide (lo.toNat ≤ c.toNat) && decide (c.toNat ≤ hi.toNat)

/-- Strip the literal character list `p` from the front of `cs`. -/
def stripGo : List Char → List Char → Option (List Char)
  | [], cs => some cs
  | _ :: _, [] => none
  | p :: ps, c :: cs => if c == p then stripGo ps cs else none

/-- Strip the literal prefix `p` from the string `s` (as characters). -/
def stripLit (p s : String) : Option (List Char) :=
  stripGo p.data s.data

/-- Match `p` followed by a suffix accepted by `f`, anchored on both sides. -/
def sufMatch (p : String) (f : List Char → Bool) (s : String) : Bool :=
  match stripLit p s with
  | some r => f r
  | none => false

/-- Suffix of `^ide[0-3]{1}$`. -/
def ideSuf : List Char → Bool
  | [c] => charIn '0' '3' c
  | _ => false

/-- Suffix of `^scsi(30|[12][0-9]|[0-9])$`. -/
def scsiSuf : List Char → Bool
  | [c] => charIn '0' '9' c
  | [c1, c2] => (c1 == '3' && c2 == '0') || (charIn '1' '2' c1 && charIn '0' '9' c2)
  | _ => false

/-- Suffix of `^virtio(1[0-5]|[0-9])$`. -/
def virtioSuf : List Char → Bool
  | [c] => charIn '0' '9' c
  | [c1, c2] => c1 == '1' && charIn '0' '5' c2
  | _ => false

/-- Suffix of `^sata[0-5]{1}$`. -/
def sataSuf : List Char → Bool
  | [c] => charIn '0' '5' c
  | _ => false

/-- Suffix of `^unused(25[0-5]|[12][0-4][0-9]|[1-9]?[0-9])$`, exactly as
written in the source (note: `[12][0-4][0-9]` covers 100-149 and 200-249
only). -/
def unusedSuf : List Char → Bool
  | [c] => charIn '0' '9' c
  | [c1, c2] => charIn '1' '9' c1 && charIn '0' '9' c2
  | [c1, c2, c3] =>
      (c1 == '2' && c2 == '5' && charIn '0' '5' c3) ||
      (charIn '1' '2' c1 && charIn '0' '4' c2 && charIn '0' '9' c3)
  | _ => false

/-- The module's `disk_regex`:
`^ide[0-3]{1}$|^scsi(30|[12][0-9]|[0-9])$|^virtio(1[0-5]|[0-9])$|^sata[0-5]{1}$|^efidisk0$|^tpmstate0$|^unused(25[0-5]|[12][0-4][0-9]|[1-9]?[0-9])$`
(each alternative is anchored at both ends, so `re.search` is a full match
against one alternative). -/
def disk_key_match (s : String) : Bool :=
  sufMatch "ide" ideSuf s ||
  sufMatch "scsi" scsiSuf s ||
  sufMatch "virtio" virtioSuf s ||
  sufMatch "sata" sataSuf s ||
  s == "efidisk0" || s == "tpmstate0" ||
  sufMatch "unused" unusedSuf s

/-- Alternative `0[1-9]?` of the net-slot regex. -/
def netAltA : List Char → Bool
  | [c] => c == '0'
  | [c1, c2] => c1 == '0' && charIn '1' '9' c2
  | _ => false

/-- Suffix of `^net(0[1-9]?|[1-9]?[0-9]*)$`.  The second alternative
`[1-9]?[0-9]*` accepts exactly the (possibly empty) strings of decimal
digits: `[1-9]?` may match nothing and `[0-9]*` the whole remainder. -/
def netSuf (rest : List Char) : Bool :=
  netAltA rest || rest.all (charIn '0' '9')

/-- The module's `net_regex`: `^net(0[1-9]?|[1-9]?[0-9]*)$`. -/
def net_key_match (s : String) : Bool :=
  sufMatch "net" netSuf s

/-- All characters of `cs` are acceptable for the regex `.` class
(anything but a newline). -/
def noNl (cs : List Char) : Bool :=
  cs.all (fun c => c != '\n')

/-- `noNl` on the index range `[lo, hi)` of `cs`. -/
def segNoNl (cs : List Char) (lo hi : Nat) : Bool :=
  noNl ((cs.drop lo).take (hi - lo))

/-- `re.search("^.+:[0-9].+/.+\..+", s)` from `add_to_disks`: anchored at
the start, so the string matches iff it decomposes as
`.+` ++ `:` ++ digit ++ `.+` ++ `/` ++ `.+` ++ `.` ++ `.+`
with every `.+` segment newline-free.  `i`, `j`, `k` are the positions of
the `:`, the `/` and the `.` of the pattern. -/
def disk_value_match (s : String) : Bool :=
  let cs := s.data
  let n := cs.length
  (List.range n).any fun i =>
    (cs.getD i ' ' == ':') && charIn '0' '9' (cs.getD (i + 1) ' ') &&
    decide (1 ≤ i) && segNoNl cs 0 i &&
    ((List.range n).any fun j =>
      (cs.getD j ' ' == '/') && decide (i + 3 ≤ j) && segNoNl cs (i + 2) j &&
      ((List.range n).any fun k =>
        (cs.getD k ' ' == '.') && decide (j + 2 ≤ k) && decide (k + 2 ≤ n) &&
        segNoNl cs (j + 1) k && (cs.getD (k + 1) ' ' != '\n')))

/-- `s.split(sep)` worker: `acc` holds the current field reversed. -/
def splitRun (sep : Char) : List Char → List Char → List String
  | [], acc => [String.mk acc.reverse]
  | c :: rest, acc =>
      if c == sep then String.mk acc.reverse :: splitRun sep rest []
      else splitRun sep rest (c :: acc)

/-- Python `s.split(sep)` for a one-character separator (no maxsplit):
`"".split(",") = [""]`, `"a,,b".split(",") = ["a","","b"]`. -/
def pysplit (sep : Char) (s : String) : List String :=
  splitRun sep s.data []

/-- Python `ch in s`. -/
def pycontains (ch : Char) (s : String) : Bool :=
  s.data.contains ch

/-- Python `int(x)` on a decimal digit string with an optional sign
(`int` of a non-conforming string raises, i.e. yields `none`). -/
def digitsVal (ds : List Char) : Option Nat :=
  if ds.isEmpty then none
  else if ds.all (charIn '0' '9') then
    some (ds.foldl (fun n c => n * 10 + (c.toNat - '0'.toNat)) 0)
  else none

/-- Python `int(s)` for a string argument. -/
def pyIntStr (s : String) : Option Int :=
  match s.data with
  | '-' :: ds => (digitsVal ds).map (fun n => -(n : Int))
  | '+' :: ds => (digitsVal ds).map (fun n => (n : Int))
  | ds => (digitsVal ds).map (fun n => (n : Int))

/-- Python `int(v)` on a configuration value; `none` is a raised
`TypeError` / `ValueError`. -/
def pyInt : Value → Option Int
  | .num n => some n
  | .str s => pyIntStr s
  | .recs _ => none

/-- `isinstance(val, (int, float))` from the `cpu` special case. -/
def isNumericVal : Value → Bool
  | .num _ => true
  | _ => false

/-- One comma-token of `add_to_disks`:

```
if not re.search(regex, data) and '=' not in data: continue
if re.search(regex, data):
    item['storage'] = data.split(':')[0]
    item['path'] = data.split('/')[1]
else:
    k = data.split('=')[0]
    v = data.split('=')[1]
    item[k] = v
```

A `none` result is a raised `IndexError` (caught by the caller). -/
def diskToken (item : Item) (data : String) : Option Item :=
  if !disk_value_match data && !pycontains '=' data then some item
  else if disk_value_match data then
    match (pysplit '/' data).get? 1 with
    | some p => some (ainsert "path" p (ainsert "storage" ((pysplit ':' data).headD "") item))
    | none => none
  else
    match (pysplit '=' data).get? 1 with
    | some v => some (ainsert ((pysplit '=' data).headD "") v item)
    | none => none

/-- `ProxmoxVmInfoAnsible.add_to_disks(name, value)`: builds
`item = {'name': name}`, runs `diskToken` over `value.split(',')` and
appends the item to the `disks` accumulator.  Any exception (a non-string
`value`, or a failing token) is swallowed: the accumulator is left
unchanged and `False` is returned. -/
def add_to_disks (name : String) (value : Value) (disks : List Item) : List Item × Bool :=
  match value with
  | .str s =>
    match (pysplit ',' s).foldlM diskToken [("name", name)] with
    | some item => (disks ++ [item], true)
    | none => (disks, false)
  | _ => (disks, false)

/-- The recognized virtual NIC model identifiers. -/
def nicModels : List String := ["e1000", "virtio", "rtl8139", "vmxnet3"]

/-- One comma-token of `add_to_nets`:

```
if '=' in data:
    k, v = data.split('=')
    if k in ['e1000','virtio','rtl8139','vmxnet3']:
        item['model'] = k
        item['mac'] = v
    else:
        item[k] = v
```

The tuple unpacking raises (`none`) unless the split has exactly two
parts, i.e. unless the token contains exactly one `=`. -/
def netToken (item : Item) (data : String) : Option Item :=
  if pycontains '=' data then
    match pysplit '=' data with
    | [k, v] =>
        if nicModels.contains k then some (ainsert "mac" v (ainsert "model" k item))
        else some (ainsert k v item)
    | _ => none
  else some item

/-- `ProxmoxVmInfoAnsible.add_to_nets(name, value)`, with the same
swallow-the-exception policy as `add_to_disks`. -/
def add_to_nets (name : String) (value : Value) (nets : List Item) : List Item × Bool :=
  match value with
  | .str s =>
    match (pysplit ',' s).foldlM netToken [("name", name)] with
    | some item => (nets ++ [item], true)
    | none => (nets, false)
  | _ => (nets, false)

/-- The instance state of `ProxmoxVmInfoAnsible`: the `disks` / `nets`
accumulation lists shared across calls. -/
structure PState where
  disks : List Item
  nets : List Item
deriving DecidableEq

/-- One iteration of the `for key in list(vm)` loop of `get_vm_configs`,
acting on `(vm, state, dsw, nsw)`:

```
val = vm[key]
if (re.search(disk_regex, key)):
    self.add_to_disks(key, val); del vm[key]; dsw = True
elif (re.search(net_regex, key)):
    self.add_to_nets(key, val); del vm[key]; nsw = True
elif key == "cpu" and isinstance(val, (int, float)):
    vm['cpu'] = 'default'
```

(the `none` lookup branch is unreachable: the snapshot keys are the
dict's own keys and only already-processed keys are deleted). -/
def classifyStep (acc : Dict × PState × Bool × Bool) (key : String) : Dict × PState × Bool × Bool :=
  let (vm, st, dsw, nsw) := acc
  match aget key vm with
  | none => acc
  | some val =>
    if disk_key_match key then
      (adel key vm, { st with disks := (add_to_disks key val st.disks).1 }, true, nsw)
    else if net_key_match key then
      (adel key vm, { st with nets := (add_to_nets key val st.nets).1 }, dsw, true)
    else if key == "cpu" && isNumericVal val then
      (ainsert "cpu" (Value.str "default") vm, st, dsw, nsw)
    else acc

/-- The tail of `get_vm_configs`:

```
if dsw:
    vm['disks'] = self.disks
    self.disks = []
if nsw:
    vm['nets'] = self.nets
    self.nets = []
```
-/
def attachLists (r : Dict × PState × Bool × Bool) : Dict × PState :=
  let r2 :=
    if r.2.2.1 then (ainsert "disks" (Value.recs r.2.1.disks) r.1, PState.mk [] r.2.1.nets)
    else (r.1, r.2.1)
  if r.2.2.2 then (ainsert "nets" (Value.recs r2.2.nets) r2.1, PState.mk r2.2.disks [])
  else r2

/-- The pure part of `get_vm_configs(node, vm)` once the configuration
`vmcnf` has been fetched: `vm.update(vmcnf)`, `vm['node'] = node`, the
classification loop over a snapshot of the keys, then attaching the
accumulated `disks` / `nets` lists. -/
def classifyVm (st : PState) (node : String) (vm vmcnf : Dict) : Dict × PState :=
  let vm1 := ainsert "node" (Value.str node) (aupdate vm vmcnf)
  attachLists ((vm1.map Prod.fst).foldl classifyStep (vm1, st, false, false))

/-- The black-box Proxmox API (spec section 6): node listing, per-node
QEMU / LXC listings, per-VM configuration, and name resolution.  A `none`
answer models a failed HTTP request, which surfaces in the module as a
caught exception. -/
structure Cluster where
  nodes : List String
  qemu : String → Option (List Dict)
  lxc : String → Option (List Dict)
  config : String → Int → Option Dict
  nameMap : String → Option Int

/-- Issue a per-node API request.  The module sometimes passes the
Python `None` it got for an absent `node` parameter; the request then
targets the nonexistent path `nodes/None/...` and fails. -/
def apiNode {α : Type} (f : String → Option α) : Option String → Option α
  | none => none
  | some nd => f nd

/-- `fail_json` messages used by the module (the `%s`-interpolated
exception text is elided). -/
def qemuFailMsg : String := "Failed to retrieve QEMU VMs information"

def lxcFailMsg : String := "Failed to retrieve LXC VMs information"

def nodeNameFailMsg : String := "Failed to retrieve QEMU VMs Node Name"

/-- The overall outcome of the module: `module.exit_json` with the
`proxmox_vms` list, or `module.fail_json` with a message. -/
inductive MResult where
  | ok : List Dict → MResult
  | fail : String → MResult
deriving DecidableEq

/-- `get_vm_configs(node, vm)`: fetch
`nodes(node).qemu(vm['vmid']).config.get()` and hand over to
`classifyVm`; any request failure becomes a `fail_json`. -/
def get_vm_configs (c : Cluster) (st : PState) (node : Option String) (vm : Dict) :
    Except String (Dict × PState) :=
  match node, aget "vmid" vm with
  | some nd, some (Value.num n) =>
    match c.config nd n with
    | some vmcnf => .ok (classifyVm st nd vm vmcnf)
    | none => .error qemuFailMsg
  | _, _ => .error qemuFailMsg

/-- The `for vm in vmlist` loop of `get_qemu_vms`: tag `vmid` (as int)
and `type`, then normalize via `get_vm_configs`. -/
def qemuLoop (c : Cluster) (node : Option String) :
    List Dict → PState → Except String (List Dict × PState)
  | [], st => .ok ([], st)
  | vm :: rest, st =>
    match aget "vmid" vm with
    | none => .error qemuFailMsg
    | some v =>
      match pyInt v with
      | none => .error qemuFailMsg
      | some n =>
        match get_vm_configs c st node (ainsert "type" (Value.str "qemu") (ainsert "vmid" (Value.num n) vm)) with
        | .error e => .error e
        | .ok (rec, st2) =>
          match qemuLoop c node rest st2 with
          | .error e => .error e
          | .ok (recs, st3) => .ok (rec :: recs, st3)

/-- `get_qemu_vms(node, vmid=None)`. -/
def get_qemu_vms (c : Cluster) (st : PState) (node : Option String) (vmid : Option Int) :
    Except String (List Dict × PState) :=
  match apiNode c.qemu node with
  | none => .error qemuFailMsg
  | some vmlist =>
    match qemuLoop c node vmlist st with
    | .error e => .error e
    | .ok (vms, st2) =>
      match vmid with
      | none => .ok (vms, st2)
      | some v => .ok (vms.filter (fun vm => aget "vmid" vm == some (Value.num v)), st2)

/-- The `for vm in vms` loop of `get_lxc_vms`: `vm["vmid"] = int(vm["vmid"])`.
Note that, unlike the qemu path, no `type` tag is added. -/
def lxcLoop : List Dict → Except String (List Dict)
  | [] => .ok []
  | vm :: rest =>
    match aget "vmid" vm with
    | none => .error lxcFailMsg
    | some v =>
      match pyInt v with
      | none => .error lxcFailMsg
      | some n => (lxcLoop rest).map (fun l => ainsert "vmid" (Value.num n) vm :: l)

/-- `get_lxc_vms(node, vmid=None)`. -/
def get_lxc_vms (c : Cluster) (node : Option String) (vmid : Option Int) :
    Except String (List Dict) :=
  match apiNode c.lxc node with
  | none => .error lxcFailMsg
  | some vms0 =>
    match lxcLoop vms0 with
    | .error e => .error e
    | .ok vms =>
      match vmid with
      | none => .ok vms
      | some v => .ok (vms.filter (fun vm => aget "vmid" vm == some (Value.num v)))

/-- `vm_in_node(vmid, node)`: scan the node's QEMU listing for the id.
The comparison `int(vm['vmid']) == vmid` is against the (possibly
`None`) `vmid` variable of `main`. -/
def vm_in_node (c : Cluster) (vmid : Option Int) (node : String) : Except String Bool :=
  match c.qemu node with
  | none => .error qemuFailMsg
  | some vms => vmInNodeScan vmid vms
where
  vmInNodeScan (vmid : Option Int) : List Dict → Except String Bool
    | [] => .ok false
    | vm :: rest =>
      match aget "vmid" vm with
      | none => .error qemuFailMsg
      | some v =>
        match pyInt v with
        | none => .error qemuFailMsg
        | some n =>
          if some n == vmid then .ok true else vmInNodeScan vmid rest

/-- `get_vm_node(vmid)`: first node whose QEMU listing contains the id;
falling through the loop returns Python `None`. -/
def get_vm_node (c : Cluster) (vmid : Option Int) : Except String (Option String) :=
  getVmNodeScan c vmid c.nodes
where
  getVmNodeScan (c : Cluster) (vmid : Option Int) : List String → Except String (Option String)
    | [] => .ok none
    | nd :: rest =>
      match vm_in_node c vmid nd with
      | .error e => .error e
      | .ok true => .ok (some nd)
      | .ok false => getVmNodeScan c vmid rest

/-- The module parameters (after `AnsibleModule` validation). -/
structure Params where
  node : Option String
  type : String
  vmid : Option Int
  name : Option String

/-- Python truthiness of the `vmid` variable (`None` and `0` are falsy). -/
def truthyVmid : Option Int → Bool
  | none => false
  | some v => v != 0

/-- Python truthiness of an optional string (`None` and `""` are falsy). -/
def truthyStr : Option String → Bool
  | none => false
  | some s => s != ""

/-- `"%s" % node` for the optional node variable. -/
def optNodeStr : Option String → String
  | none => "None"
  | some s => s

/-- Modelled from the spec: `node_exists` (`ProxmoxAnsible.get_node` lives
in the collection's `module_utils`, outside the sources at hand) — the
requested node is in the cluster's node listing. -/
def get_node (c : Cluster) (n : String) : Bool :=
  c.nodes.contains n

/-- `if node and (proxmox.get_node(node) is None)`: the fatal
"Node ... doesn't exist in PVE cluster" check of `main`. -/
def nodeCheck (c : Cluster) (p : Params) : Bool :=
  truthyStr p.node && !get_node c (p.node.getD "")

/-- Modelled from the spec: `resolve_vmid_by_name`
(`ProxmoxAnsible.get_vmid` lives in the collection's `module_utils`,
outside the sources at hand) — `if not vmid and name: vmid =
int(proxmox.get_vmid(name, ignore_missing=False))`, which fails when the
name resolves to no VM. -/
def resolveVmid (c : Cluster) (p : Params) : Except String (Option Int) :=
  if !truthyVmid p.vmid && truthyStr p.name then
    match c.nameMap (p.name.getD "") with
    | some v => .ok (some v)
    | none => .error ("VM with name " ++ p.name.getD "" ++ " does not exist in cluster")
  else .ok p.vmid

/-- The `for node in proxmox.proxmox_api.nodes.get()` loop of the
`type == "qemu"` / no selection branch: concatenate each node's QEMU
listing (skipping empty ones) and remember the last value of the loop
variable `node`, which the final failure message interpolates. -/
def allNodesLoop (c : Cluster) :
    List String → List Dict → PState → Option String → Except String (List Dict × PState × Option String)
  | [], vms, st, last => .ok (vms, st, last)
  | nd :: rest, vms, st, _ =>
    match get_qemu_vms c st (some nd) none with
    | .error e => .error e
    | .ok (nodevms, st2) =>
      allNodesLoop c rest (if nodevms.isEmpty then vms else vms ++ nodevms) st2 (some nd)

/-- The dispatch of `main` (`vms = []` then the `if type == "lxc" / elif
type == "qemu"` chain); also returns the final value of the `node`
variable.  For any other `type` — in particular the default `"all"` —
no branch runs and `vms` stays empty. -/
def selectVms (c : Cluster) (p : Params) (vmid : Option Int) :
    Except String (List Dict × Option String) :=
  if p.type == "lxc" then
    (get_lxc_vms c p.node vmid).map (fun vms => (vms, p.node))
  else if p.type == "qemu" then
    if truthyStr p.node then
      (get_qemu_vms c (PState.mk [] []) p.node none).map (fun r => (r.1, p.node))
    else if truthyVmid vmid || truthyStr p.name then
      match get_vm_node c vmid with
      | .error e => .error e
      | .ok nodeOpt => (get_qemu_vms c (PState.mk [] []) nodeOpt vmid).map (fun r => (r.1, p.node))
    else
      match allNodesLoop c c.nodes [] (PState.mk [] []) p.node with
      | .error e => .error e
      | .ok (vms, _st, last) => .ok (vms, last)
  else .ok ([], p.node)

/-- `main()` after `AnsibleModule` parameter validation: the node
existence check, name-to-vmid resolution, the type dispatch, and the
final `if vms or vmid is None: exit_json else: fail_json("VM with vmid
%s doesn't exist on node %s")`. -/
def pmain (c : Cluster) (p : Params) : MResult :=
  if nodeCheck c p then
    .fail ("Node " ++ p.node.getD "" ++ " doesn't exist in PVE cluster")
  else
    match resolveVmid c p with
    | .error e => .fail e
    | .ok vmid =>
      match selectVms c p vmid with
      | .error e => .fail e
      | .ok (vms, nodevar) =>
        if !vms.isEmpty || vmid.isNone then .ok vms
        else
          .fail ("VM with vmid " ++ toString (vmid.getD 0) ++ " doesn't exist on node " ++
            optNodeStr nodevar)

/-- Modelled from the spec: the amended characterisation of the accepted
network-slot keys — `net` followed by any (possibly empty) string of
decimal digits. -/
def netKeyDigits (s : String) : Bool :=
  match stripLit "net" s with
  | some rest => rest.all (charIn '0' '9')
  | none => false

/-- The record carries an integer `vmid` field. -/
def vmidIsInt (vm : Dict) : Bool :=
  match aget "vmid" vm with
  | some (Value.num _) => true
  | _ => false

/-- The record carries a string `node` field. -/
def nodeIsStr (vm : Dict) : Bool :=
  match aget "node" vm with
  | some (Value.str _) => true
  | _ => false

/-- A one-node cluster whose LXC listing holds the single container 101
(no `type` field in the listing payload) and whose QEMU endpoints fail. -/
def lxcProbeCluster : Cluster where
  nodes := ["node01"]
  qemu := fun _ => none
  lxc := fun nd =>
    if nd == "node01" then some [[("vmid", Value.str "101"), ("status", Value.str "running")]]
    else none
  config := fun _ _ => none
  nameMap := fun _ => none

/-- A one-node cluster with one QEMU VM (id 100, config `cores=4`) and
one LXC container (id 101). -/
def mixedCluster : Cluster where
  nodes := ["node01"]
  qemu := fun nd =>
    if nd == "node01" then some [[("vmid", Value.str "100"), ("status", Value.str "running")]]
    else none
  lxc := fun nd => if nd == "node01" then some [[("vmid", Value.str "101")]] else none
  config := fun nd v =>
    if nd == "node01" && v == 100 then some [("cores", Value.num 4)] else none
  nameMap := fun _ => none

/-- What `classifyStep` does on a key that matches neither slot regex:
only the numeric-`cpu` normalization can fire. -/
def cpuStep (d : Dict) (key : String) : Dict :=
  match aget key d with
  | none => d
  | some val =>
    if key == "cpu" && isNumericVal val then ainsert "cpu" (Value.str "default") d else d

/-! ### Association-list lemmas -/

theorem aget_ainsert_self {α : Type} (k : String) (v : α) (m : List (String × α)) :
    aget k (ainsert k v m) = some v := by
  induction m with
  | nil => simp [aget, ainsert]
  | cons p rest ih =>
    obtain ⟨k1, v1⟩ := p
    by_cases h : k1 = k
    · subst h
      simp [aget, ainsert]
    · simp [aget, ainsert, h, ih]

theorem aget_ainsert_ne {α : Type} {k k2 : String} (h : k ≠ k2) (v : α)
    (m : List (String × α)) : aget k (ainsert k2 v m) = aget k m := by
  induction m with
  | nil => simp [aget, ainsert, Ne.symm h]
  | cons p rest ih =>
    obtain ⟨k1, v1⟩ := p
    by_cases h1 : k1 = k2
    · subst h1
      simp [aget, ainsert, Ne.symm h]
    · by_cases h2 : k1 = k
      · subst h2
        simp [aget, ainsert, h1]
      · simp [aget, ainsert, h1, h2, ih]

theorem aget_adel_ne {α : Type} {k k2 : String} (h : k ≠ k2)
    (m : List (String × α)) : aget k (adel k2 m) = aget k m := by
  induction m with
  | nil => simp [adel]
  | cons p rest ih =>
    obtain ⟨k1, v1⟩ := p
    by_cases h1 : k1 = k2
    · subst h1
      simp [aget, adel, Ne.symm h]
      simpa [adel] using ih
    · by_cases h2 : k1 = k
      · subst h2
        simp [aget, adel, h1]
      · simp [aget, adel, h1, h2]
        simpa [adel] using ih

theorem aget_some_mem {α : Type} {k : String} {w : α} {m : List (String × α)}
    (h : aget k m = some w) : k ∈ m.map Prod.fst := by
  induction m with
  | nil => simp [aget] at h
  | cons p rest ih =>
    obtain ⟨k1, v1⟩ := p
    by_cases h1 : k1 = k
    · simp [h1]
    · simp only [aget, beq_iff_eq, if_neg h1] at h
      simp [ih h]

theorem aget_none_of_not_mem {α : Type} {k : String} {m : List (String × α)}
    (h : k ∉ m.map Prod.fst) : aget k m = none := by
  rcases hg : aget k m with _ | v
  · rfl
  · exact absurd (aget_some_mem hg) h

theorem aget_aupdate_none {α : Type} {k : String} {o : List (String × α)}
    (h : aget k o = none) (m : List (String × α)) : aget k (aupdate m o) = aget k m := by
  induction o generalizing m with
  | nil => rfl
  | cons p rest ih =>
    obtain ⟨k1, v1⟩ := p
    by_cases h1 : k1 = k
    · simp [aget, h1] at h
    · have h2 : aget k rest = none := by simpa [aget, h1] using h
      show aget k (aupdate (ainsert k1 v1 m) rest) = aget k m
      rw [ih h2, aget_ainsert_ne (Ne.symm h1)]

theorem aget_aupdate_some {α : Type} {k : String} {v : α} {o : List (String × α)}
    (hnd : (o.map Prod.fst).Nodup) (h : aget k o = some v) (m : List (String × α)) :
    aget k (aupdate m o) = some v := by
  induction o generalizing m with
  | nil => simp [aget] at h
  | cons p rest ih =>
    obtain ⟨k1, v1⟩ := p
    simp only [List.map_cons, List.nodup_cons] at hnd
    by_cases h1 : k1 = k
    · subst h1
      have hv : v1 = v := by simpa [aget] using h
      have hrest : aget k1 rest = none := by
        rcases hg : aget k1 rest with _ | w
        · rfl
        · exact absurd (aget_some_mem hg) hnd.1
      show aget k1 (aupdate (ainsert k1 v1 m) rest) = some v
      rw [aget_aupdate_none hrest, aget_ainsert_self, hv]
    · have h2 : aget k rest = some v := by simpa [aget, h1] using h
      show aget k (aupdate (ainsert k1 v1 m) rest) = some v
      exact ih hnd.2 h2 _

theorem mem_keys_ainsert {α : Type} {j k : String} {v : α} {m : List (String × α)}
    (h : j ∈ (ainsert k v m).map Prod.fst) : j = k ∨ j ∈ m.map Prod.fst := by
  induction m with
  | nil => simpa [ainsert] using h
  | cons p rest ih =>
    obtain ⟨k1, v1⟩ := p
    by_cases h1 : k1 = k
    · rw [show ainsert k v ((k1, v1) :: rest) = (k, v) :: rest from by simp [ainsert, h1]] at h
      rw [List.map_cons, List.mem_cons] at h
      rcases h with h | h
      · exact Or.inl h
      · exact Or.inr (by rw [List.map_cons, List.mem_cons]; exact Or.inr h)
    · rw [show ainsert k v ((k1, v1) :: rest) = (k1, v1) :: ainsert k v rest from by
        simp [ainsert, h1]] at h
      rw [List.map_cons, List.mem_cons] at h
      rcases h with h | h
      · exact Or.inr (by rw [List.map_cons, List.mem_cons]; exact Or.inl h)
      · rcases ih h with h2 | h2
        · exact Or.inl h2
        · exact Or.inr (by rw [List.map_cons, List.mem_cons]; exact Or.inr h2)

theorem mem_keys_aupdate {α : Type} {j : String} {m o : List (String × α)}
    (h : j ∈ (aupdate m o).map Prod.fst) : j ∈ m.map Prod.fst ∨ j ∈ o.map Prod.fst := by
  induction o generalizing m with
  | nil => exact Or.inl h
  | cons p rest ih =>
    obtain ⟨k1, v1⟩ := p
    have h0 : j ∈ (aupdate (ainsert k1 v1 m) rest).map Prod.fst := h
    rcases ih h0 with h2 | h2
    · rcases mem_keys_ainsert h2 with h3 | h3
      · exact Or.inr (by rw [List.map_cons, List.mem_cons]; exact Or.inl h3)
      · exact Or.inl h3
    · exact Or.inr (by rw [List.map_cons, List.mem_cons]; exact Or.inr h2)

/-! ### C1: the `type = "all"` dispatch -/

/-- C1: with `type` set to `"all"` (the default), the dispatch of `main`
handles only the `"lxc"` and `"qemu"` branches, so for every cluster
state the module returns an empty `proxmox_vms` list when no vmid is
requested, and fails with a "doesn't exist" message when a vmid is
requested; no QEMU or LXC enumeration is performed. -/
theorem claim_C1_all_dispatch (c : Cluster) :
    pmain c (Params.mk none "all" none none) = MResult.ok [] ∧
    ∀ v : Int, pmain c (Params.mk none "all" (some v) none) =
      MResult.fail ("VM with vmid " ++ toString v ++ " doesn't exist on node None") := by
  refine ⟨rfl, fun v => ?_⟩
  simp +decide [pmain, nodeCheck, truthyStr, resolveVmid, truthyVmid, selectVms, optNodeStr]
  rw [String.append_assoc ("VM with vmid " ++ toString v) " doesn't exist on node " "None"]
  exact rfl

/-! ### C2: the storage/path disk-token shape -/

/-- C2 counterexample: the value regex `^.+:[0-9].+/.+\..+` requires a
digit right after the colon, so neither spec example matches it: the
`ide2` token `local:iso/install.iso` produces no `storage` / `path`
fields, and neither does the `scsi0` token `local-lvm:vm-100-disk-0`. -/
theorem claim_C2_counterexample :
    (add_to_disks "ide2" (Value.str "local:iso/install.iso,media=cdrom") []).1 =
      [[("name", "ide2"), ("media", "cdrom")]] ∧
    aget "storage" [("name", "ide2"), ("media", "cdrom")] = none ∧
    aget "path" [("name", "ide2"), ("media", "cdrom")] = none ∧
    (add_to_disks "scsi0" (Value.str "local-lvm:vm-100-disk-0,size=30G") []).1 =
      [[("name", "scsi0"), ("size", "30G")]] := by
  refine ⟨rfl, rfl, rfl, rfl⟩

/-! ### C3: the disk-slot key set -/

/-- C3: the spec is right that `unused[0-255]` is intended, but the
`unused(25[0-5]|[12][0-4][0-9]|[1-9]?[0-9])` alternative of the code's
regex skips 150-199: `unused150` is not classified as a disk slot (and
so survives in the flat record with no `disks` list), while `unused149`
and `unused200` are classified and routed to the disk parser. -/
theorem claim_C3_unused_gap :
    disk_key_match "unused150" = false ∧
    disk_key_match "unused149" = true ∧
    disk_key_match "unused200" = true ∧
    disk_key_match "unused255" = true ∧
    aget "unused150" (classifyVm (PState.mk [] []) "node01" [("vmid", Value.num 100)]
        [("unused150", Value.str "local:100/vm-100-disk-1.qcow2")]).1 =
      some (Value.str "local:100/vm-100-disk-1.qcow2") ∧
    aget "disks" (classifyVm (PState.mk [] []) "node01" [("vmid", Value.num 100)]
        [("unused150", Value.str "local:100/vm-100-disk-1.qcow2")]).1 = none ∧
    aget "unused149" (classifyVm (PState.mk [] []) "node01" [("vmid", Value.num 100)]
        [("unused149", Value.str "local:100/vm-100-disk-1.qcow2")]).1 = none ∧
    aget "disks" (classifyVm (PState.mk [] []) "node01" [("vmid", Value.num 100)]
        [("unused149", Value.str "local:100/vm-100-disk-1.qcow2")]).1 =
      some (Value.recs [[("name", "unused149"), ("storage", "local"),
        ("path", "vm-100-disk-1.qcow2")]]) := by
  refine ⟨rfl, rfl, rfl, rfl, rfl, rfl, rfl, rfl⟩

/-! ### C4: requested vmid not found -/

/-- C4 counterexample: a requested `vmid` with an empty selection makes
`main` take the `fail_json` branch, not the empty-success one: on a
cluster whose only node holds only container 101, asking for
`type=lxc, vmid=100` fails with the "doesn't exist" message, and asking
for `vmid=999` with neither `node` nor `type` fails likewise. -/
theorem claim_C4_counterexample :
    pmain lxcProbeCluster (Params.mk (some "node01") "lxc" (some 100) none) =
      MResult.fail "VM with vmid 100 doesn't exist on node node01" ∧
    pmain lxcProbeCluster (Params.mk (some "node01") "lxc" (some 100) none) ≠
      MResult.ok [] ∧
    pmain lxcProbeCluster (Params.mk none "all" (some 999) none) =
      MResult.fail "VM with vmid 999 doesn't exist on node None" := by
  refine ⟨rfl, by decide, rfl⟩

/-- C4 amended: when the node check passes, the (possibly name-resolved)
requested vmid is `some v`, and the type dispatch selects an empty list,
the module fails with the "VM with vmid ... doesn't exist on node ..."
message; an empty `proxmox_vms` with success happens only when no vmid
was requested. -/
theorem claim_C4_amended (c : Cluster) (p : Params) (v : Int) (nv : Option String)
    (h0 : nodeCheck c p = false)
    (h1 : resolveVmid c p = Except.ok (some v))
    (h2 : selectVms c p (some v) = Except.ok ([], nv)) :
    pmain c p =
      MResult.fail ("VM with vmid " ++ toString v ++ " doesn't exist on node " ++
        optNodeStr nv) := by
  simp [pmain, h0, h1, h2]

/-- C4 witness. -/
theorem claim_C4_witness :
    pmain lxcProbeCluster (Params.mk (some "node01") "lxc" (some 100) none) =
      MResult.fail ("VM with vmid " ++ toString (100 : Int) ++ " doesn't exist on node " ++
        optNodeStr (some "node01")) :=
  claim_C4_amended lxcProbeCluster (Params.mk (some "node01") "lxc" (some 100) none)
    100 (some "node01") rfl rfl rfl

/-! ### C5: the per-slot exception policy -/

/-- C5 counterexample: an exception in one slot's parsing does not abort
the entire disk list of the VM: with `scsi0` carrying an unsplittable
(numeric) value and `scsi1` a well-formed one, the VM record still gets
a `disks` list containing the `scsi1` record. -/
theorem claim_C5_counterexample :
    (add_to_disks "scsi0" (Value.num 5) []).2 = false ∧
    (classifyVm (PState.mk [] []) "node01"
        [("vmid", Value.num 100), ("type", Value.str "qemu")]
        [("scsi0", Value.num 5),
         ("scsi1", Value.str "local:100/vm-100-disk-1.qcow2,size=30G")]).1 =
      [("vmid", Value.num 100), ("type", Value.str "qemu"), ("node", Value.str "node01"),
       ("disks", Value.recs [[("name", "scsi1"), ("storage", "local"),
         ("path", "vm-100-disk-1.qcow2"), ("size", "30G")]])] := by
  refine ⟨rfl, rfl⟩

/-- C5 amended: a swallowed exception in `add_to_disks` drops only that
slot's record — the accumulator is returned unchanged and no error
propagates (the function is total). -/
theorem claim_C5_amended (name : String) (value : Value) (disks : List Item)
    (h : (add_to_disks name value disks).2 = false) :
    (add_to_disks name value disks).1 = disks := by
  cases value with
  | str s =>
    rcases hf : (pysplit ',' s).foldlM diskToken [("name", name)] with _ | item
    · simp [add_to_disks, hf]
    · simp [add_to_disks, hf] at h
  | num n => rfl
  | recs l => rfl

/-- C5 witness. -/
theorem claim_C5_witness : (add_to_disks "scsi0" (Value.num 5) []).1 = [] :=
  claim_C5_amended "scsi0" (Value.num 5) [] rfl

/-! ### C6: splitting of key=value tokens -/

/-- C6 counterexample: the parsers do not split once at the first `=`:
the disk parser splits at every `=` and keeps only the first two pieces
(`a=b=c` stores `a -> b`, losing `=c`), and the net parser's two-element
unpacking raises on a second `=`, silently dropping the whole net record. -/
theorem claim_C6_counterexample :
    (add_to_disks "scsi0" (Value.str "a=b=c") []).1 =
      [[("name", "scsi0"), ("a", "b")]] ∧
    add_to_nets "net0" (Value.str "tag=1=2") [] = ([], false) := by
  refine ⟨rfl, rfl⟩

/-! ### C8: the network-slot key set -/

/-- C8 counterexample: the accepted set of `^net(0[1-9]?|[1-9]?[0-9]*)$`
is not `net0`..`net99`: `net100`, bare `net` and `net00` all match too
(the `[1-9]?[0-9]*` alternative accepts any digit string, empty included). -/
theorem claim_C8_counterexample :
    net_key_match "net100" = true ∧ net_key_match "net" = true ∧
    net_key_match "net00" = true ∧ net_key_match "net0" = true ∧
    net_key_match "net99" = true ∧ net_key_match "neta" = false := by
  refine ⟨rfl, rfl, rfl, rfl, rfl, rfl⟩

theorem netAltA_digits {rest : List Char} (h : netAltA rest = true) :
    rest.all (charIn '0' '9') = true := by
  rcases rest with _ | ⟨c, _ | ⟨c2, _ | rest⟩⟩
  · simp [netAltA] at h
  · have hc : c = '0' := by simpa [netAltA] using h
    subst hc
    decide
  · rw [show netAltA [c, c2] = (c == '0' && charIn '1' '9' c2) from rfl] at h
    rw [Bool.and_eq_true] at h
    obtain ⟨h1, h2⟩ := h
    have hc : c = '0' := by simpa using h1
    subst hc
    simp only [List.all_cons, List.all_nil, Bool.and_true, Bool.and_eq_true]
    refine ⟨by decide, ?_⟩
    simp only [charIn, Bool.and_eq_true, decide_eq_true_eq] at h2 ⊢
    simp only [show Char.toNat '0' = 48 from rfl, show Char.toNat '1' = 49 from rfl,
      show Char.toNat '9' = 57 from rfl] at h2 ⊢
    omega
  · simp [netAltA] at h

/-- C8 amended: the keys routed to the network parser are exactly `net`
followed by any, possibly empty, string of decimal digits — this covers
`net0`..`net99` but also `net`, keys with leading zeros such as `net00`,
and arbitrarily long suffixes such as `net100`. -/
theorem claim_C8_amended (s : String) : net_key_match s = netKeyDigits s := by
  unfold net_key_match netKeyDigits sufMatch
  cases stripLit "net" s with
  | none => rfl
  | some rest =>
    show netSuf rest = rest.all (charIn '0' '9')
    unfold netSuf
    cases h : netAltA rest with
    | false => rw [Bool.false_or]
    | true => rw [Bool.true_or, netAltA_digits h]

/-! ### String-splitting lemmas (for C2 and C6) -/

theorem splitRun_no_sep {sep : Char} {cs : List Char} (h : sep ∉ cs) (acc : List Char) :
    splitRun sep cs acc = [String.mk (acc.reverse ++ cs)] := by
  induction cs generalizing acc with
  | nil => simp [splitRun]
  | cons c rest ih =>
    have hc : ¬(c == sep) = true := by
      simp only [beq_iff_eq]
      intro e
      exact h (e ▸ List.mem_cons_self c rest)
    have hrest : sep ∉ rest := fun e => h (List.mem_cons_of_mem c e)
    rw [show splitRun sep (c :: rest) acc = splitRun sep rest (c :: acc) from by
      simp [splitRun, hc]]
    rw [ih hrest]
    simp

theorem splitRun_sep_mid {sep : Char} {a : List Char} (b : List Char) (h : sep ∉ a)
    (acc : List Char) :
    splitRun sep (a ++ sep :: b) acc = String.mk (acc.reverse ++ a) :: splitRun sep b [] := by
  induction a generalizing acc with
  | nil => simp [splitRun]
  | cons c rest ih =>
    have hc : ¬(c == sep) = true := by
      simp only [beq_iff_eq]
      intro e
      exact h (e ▸ List.mem_cons_self c rest)
    have hrest : sep ∉ rest := fun e => h (List.mem_cons_of_mem c e)
    rw [show splitRun sep ((c :: rest) ++ sep :: b) acc
        = splitRun sep (rest ++ sep :: b) (c :: acc) from by simp [splitRun, hc]]
    rw [ih hrest]
    simp

theorem string_data_append (a b : String) : (a ++ b).data = a.data ++ b.data := by
  cases a
  cases b
  rfl

theorem string_mk_data (s : String) : String.mk s.data = s := by
  cases s
  rfl

theorem pycontains_false_not_mem {ch : Char} {s : String} (h : pycontains ch s = false) :
    ch ∉ s.data := by
  intro hm
  have h2 : s.data.elem ch = true := List.elem_iff.mpr hm
  rw [show pycontains ch s = s.data.elem ch from rfl, h2] at h
  cases h

theorem pycontains_true_of_mem {ch : Char} {s : String} (hm : ch ∈ s.data) :
    pycontains ch s = true := by
  rw [show pycontains ch s = s.data.elem ch from rfl]
  exact List.elem_iff.mpr hm

theorem pysplit_sep_two {sep : Char} {k v : String} (mid : String)
    (hmid : mid.data = [sep]) (hk : sep ∉ k.data) (hv : sep ∉ v.data) :
    pysplit sep (k ++ mid ++ v) = [k, v] := by
  have hdata : (k ++ mid ++ v).data = k.data ++ sep :: v.data := by
    rw [string_data_append, string_data_append, hmid]
    simp
  rw [show pysplit sep (k ++ mid ++ v) = splitRun sep (k ++ mid ++ v).data [] from rfl]
  rw [hdata, splitRun_sep_mid v.data hk [], splitRun_no_sep hv []]
  simp [string_mk_data]

/-- C6 amended: a token with exactly one `=` (and not of the storage/path
shape, and whose key is not a NIC model name) is split at that `=` into a
key and a value and inserted into the record, by both parsers.  Tokens
with more than one `=` behave differently: the disk parser keeps only the
first two pieces, and the net parser raises, dropping the whole record. -/
theorem claim_C6_amended (k v : String) (item : Item)
    (hk : pycontains '=' k = false) (hv : pycontains '=' v = false)
    (hm : disk_value_match (k ++ "=" ++ v) = false)
    (hmodel : nicModels.contains k = false) :
    diskToken item (k ++ "=" ++ v) = some (ainsert k v item) ∧
    netToken item (k ++ "=" ++ v) = some (ainsert k v item) := by
  have hk2 : ('=' : Char) ∉ k.data := pycontains_false_not_mem hk
  have hv2 : ('=' : Char) ∉ v.data := pycontains_false_not_mem hv
  have hsplit : pysplit '=' (k ++ "=" ++ v) = [k, v] :=
    pysplit_sep_two "=" rfl hk2 hv2
  have hc : pycontains '=' (k ++ "=" ++ v) = true := by
    apply pycontains_true_of_mem
    rw [string_data_append, string_data_append]
    simp [show ("=" : String).data = [('=' : Char)] from rfl]
  constructor
  · rw [show diskToken item (k ++ "=" ++ v) =
      (if !disk_value_match (k ++ "=" ++ v) && !pycontains '=' (k ++ "=" ++ v) then some item
       else if disk_value_match (k ++ "=" ++ v) then
         match (pysplit '/' (k ++ "=" ++ v)).get? 1 with
         | some p => some (ainsert "path" p
             (ainsert "storage" ((pysplit ':' (k ++ "=" ++ v)).headD "") item))
         | none => none
       else
         match (pysplit '=' (k ++ "=" ++ v)).get? 1 with
         | some w => some (ainsert ((pysplit '=' (k ++ "=" ++ v)).headD "") w item)
         | none => none) from rfl]
    rw [hm, hc, hsplit]
    rfl
  · rw [show netToken item (k ++ "=" ++ v) =
      (if pycontains '=' (k ++ "=" ++ v) then
         match pysplit '=' (k ++ "=" ++ v) with
         | [k2, v2] =>
             if nicModels.contains k2 then some (ainsert "mac" v2 (ainsert "model" k2 item))
             else some (ainsert k2 v2 item)
         | _ => none
       else some item) from rfl]
    rw [hc, hsplit]
    rw [show (match [k, v] with
      | [k2, v2] =>
          if nicModels.contains k2 then some (ainsert "mac" v2 (ainsert "model" k2 item))
          else some (ainsert k2 v2 item)
      | _ => (none : Option Item))
      = if nicModels.contains k then some (ainsert "mac" v (ainsert "model" k item))
        else some (ainsert k v item) from rfl]
    rw [hmodel]
    rfl

/-- C6 witness. -/
theorem claim_C6_witness :
    diskToken [("name", "scsi0")] ("size" ++ "=" ++ "30G") =
      some (ainsert "size" "30G" [("name", "scsi0")]) ∧
    netToken [("name", "scsi0")] ("size" ++ "=" ++ "30G") =
      some (ainsert "size" "30G" [("name", "scsi0")]) :=
  claim_C6_amended "size" "30G" [("name", "scsi0")] rfl rfl (by decide) rfl

/-! ### C2 amended: the actual storage/path extraction -/

theorem splitRun_length_pos (sep : Char) (cs acc : List Char) :
    0 < (splitRun sep cs acc).length := by
  induction cs generalizing acc with
  | nil => simp [splitRun]
  | cons c rest ih =>
    by_cases hc : (c == sep) = true
    · simp [splitRun, hc]
    · rw [show splitRun sep (c :: rest) acc = splitRun sep rest (c :: acc) from by
        simp [splitRun, hc]]
      exact ih _

theorem splitRun_length_two {sep : Char} {cs : List Char} (h : sep ∈ cs) (acc : List Char) :
    2 ≤ (splitRun sep cs acc).length := by
  induction cs generalizing acc with
  | nil => cases h
  | cons c rest ih =>
    by_cases hc : (c == sep) = true
    · rw [show splitRun sep (c :: rest) acc
          = String.mk acc.reverse :: splitRun sep rest [] from by simp [splitRun, hc]]
      have := splitRun_length_pos sep rest []
      simp only [List.length_cons]
      omega
    · rw [show splitRun sep (c :: rest) acc = splitRun sep rest (c :: acc) from by
        simp [splitRun, hc]]
      have hcr : c ≠ sep := by simpa using hc
      have hrest : sep ∈ rest := by
        rcases List.mem_cons.mp h with h1 | h1
        · exact absurd h1.symm hcr
        · exact h1
      exact ih hrest _

theorem disk_value_has_slash {s : String} (h : disk_value_match s = true) :
    ('/' : Char) ∈ s.data := by
  unfold disk_value_match at h
  simp only [List.any_eq_true, List.mem_range, Bool.and_eq_true, beq_iff_eq,
    decide_eq_true_eq] at h
  obtain ⟨i, hi, ⟨⟨⟨hcol, hdig⟩, h1i⟩, hseg⟩, j, hj, ⟨⟨hsl, hij⟩, hseg2⟩, hk⟩ := h
  have : s.data.getD j ' ' ∈ s.data := by
    rw [List.getD_eq_getElem s.data ' ' hj]
    exact List.getElem_mem hj
  rwa [hsl] at this

theorem diskToken_match {data : String} (h : disk_value_match data = true) (item : Item) :
    ∃ p, (pysplit '/' data).get? 1 = some p ∧
      diskToken item data =
        some (ainsert "path" p (ainsert "storage" ((pysplit ':' data).headD "") item)) := by
  have hs : ('/' : Char) ∈ data.data := disk_value_has_slash h
  have hl : 2 ≤ (pysplit '/' data).length := splitRun_length_two hs []
  obtain ⟨p, hp⟩ : ∃ p, (pysplit '/' data).get? 1 = some p := by
    rcases hg : (pysplit '/' data).get? 1 with _ | p
    · rw [List.get?_eq_none] at hg
      omega
    · exact ⟨p, rfl⟩
  refine ⟨p, hp, ?_⟩
  rw [show diskToken item data =
    (if !disk_value_match data && !pycontains '=' data then some item
     else if disk_value_match data then
       match (pysplit '/' data).get? 1 with
       | some q => some (ainsert "path" q
           (ainsert "storage" ((pysplit ':' data).headD "") item))
       | none => none
     else
       match (pysplit '=' data).get? 1 with
       | some w => some (ainsert ((pysplit '=' data).headD "") w item)
       | none => none) from rfl]
  rw [h, hp]
  rfl

/-- C2 amended: the "storage:path" shape actually required by the code's
regex `^.+:[0-9].+/.+\..+` has a digit right after the colon (and a dot
after the slash); every token of that shape stores `storage` (the part
before the first colon) and `path` (the part between the first and
second slash).  The spec's two examples do not have that shape, so they
parse to `{name, media}` and `{name, size}`; a conforming token such as
`local:102/vm-102-disk-0.raw` does get `storage` / `path`. -/
theorem claim_C2_amended :
    (∀ (data : String) (item : Item), disk_value_match data = true →
      ∃ p, (pysplit '/' data).get? 1 = some p ∧
        diskToken item data =
          some (ainsert "path" p (ainsert "storage" ((pysplit ':' data).headD "") item))) ∧
    (add_to_disks "ide2" (Value.str "local:iso/install.iso,media=cdrom") []).1 =
      [[("name", "ide2"), ("media", "cdrom")]] ∧
    (add_to_disks "scsi0" (Value.str "local-lvm:vm-100-disk-0,size=30G") []).1 =
      [[("name", "scsi0"), ("size", "30G")]] ∧
    (add_to_disks "virtio0" (Value.str "local:102/vm-102-disk-0.raw,size=10G") []).1 =
      [[("name", "virtio0"), ("storage", "local"), ("path", "vm-102-disk-0.raw"),
        ("size", "10G")]] :=
  ⟨fun _data item h => diskToken_match h item, rfl, rfl, rfl⟩

/-- C2 witness. -/
theorem claim_C2_witness :
    diskToken [("name", "virtio0")] "local:102/vm-102-disk-0.raw" =
      some (ainsert "path" "vm-102-disk-0.raw"
        (ainsert "storage" "local" [("name", "virtio0")])) := by
  obtain ⟨p, hp, hd⟩ :=
    claim_C2_amended.1 "local:102/vm-102-disk-0.raw" [("name", "virtio0")] (by decide)
  rw [show (pysplit '/' "local:102/vm-102-disk-0.raw").get? 1
      = some "vm-102-disk-0.raw" from rfl] at hp
  cases hp
  rw [show (pysplit ':' "local:102/vm-102-disk-0.raw").headD "" = "local" from rfl] at hd
  exact hd

/-! ### The classification fold -/

theorem classifyStep_none (vm : Dict) (st : PState) (dsw nsw : Bool) (j : String)
    (hg : aget j vm = none) : classifyStep (vm, st, dsw, nsw) j = (vm, st, dsw, nsw) := by
  simp [classifyStep, hg]

theorem classifyStep_disk (vm : Dict) (st : PState) (dsw nsw : Bool) (j : String) (val : Value)
    (hg : aget j vm = some val) (hjd : disk_key_match j = true) :
    classifyStep (vm, st, dsw, nsw) j =
      (adel j vm, { st with disks := (add_to_disks j val st.disks).1 }, true, nsw) := by
  simp [classifyStep, hg, hjd]

theorem classifyStep_net (vm : Dict) (st : PState) (dsw nsw : Bool) (j : String) (val : Value)
    (hg : aget j vm = some val) (hjd : disk_key_match j = false)
    (hjn : net_key_match j = true) :
    classifyStep (vm, st, dsw, nsw) j =
      (adel j vm, { st with nets := (add_to_nets j val st.nets).1 }, dsw, true) := by
  simp [classifyStep, hg, hjd, hjn]

theorem classifyStep_cpu (vm : Dict) (st : PState) (dsw nsw : Bool) (j : String) (val : Value)
    (hg : aget j vm = some val) (hjd : disk_key_match j = false)
    (hjn : net_key_match j = false) (hjc : (j == "cpu" && isNumericVal val) = true) :
    classifyStep (vm, st, dsw, nsw) j =
      (ainsert "cpu" (Value.str "default") vm, st, dsw, nsw) := by
  simp [classifyStep, hg, hjd, hjn, hjc]

theorem classifyStep_skip (vm : Dict) (st : PState) (dsw nsw : Bool) (j : String) (val : Value)
    (hg : aget j vm = some val) (hjd : disk_key_match j = false)
    (hjn : net_key_match j = false) (hjc : (j == "cpu" && isNumericVal val) = false) :
    classifyStep (vm, st, dsw, nsw) j = (vm, st, dsw, nsw) := by
  simp [classifyStep, hg, hjd, hjn, hjc]

theorem classifyStep_stable (acc : Dict × PState × Bool × Bool) (j k : String)
    (hd : disk_key_match k = false) (hn : net_key_match k = false) (hc : k ≠ "cpu") :
    aget k (classifyStep acc j).1 = aget k acc.1 := by
  obtain ⟨vm, st, dsw, nsw⟩ := acc
  rcases hg : aget j vm with _ | val
  · rw [classifyStep_none vm st dsw nsw j hg]
  · cases hjd : disk_key_match j with
    | true =>
      have hjk : k ≠ j := by
        intro e
        rw [e, hjd] at hd
        cases hd
      rw [classifyStep_disk vm st dsw nsw j val hg hjd]
      exact aget_adel_ne hjk vm
    | false =>
      cases hjn : net_key_match j with
      | true =>
        have hjk : k ≠ j := by
          intro e
          rw [e, hjn] at hn
          cases hn
        rw [classifyStep_net vm st dsw nsw j val hg hjd hjn]
        exact aget_adel_ne hjk vm
      | false =>
        cases hjc : (j == "cpu" && isNumericVal val) with
        | true =>
          rw [classifyStep_cpu vm st dsw nsw j val hg hjd hjn hjc]
          exact aget_ainsert_ne hc _ vm
        | false =>
          rw [classifyStep_skip vm st dsw nsw j val hg hjd hjn hjc]

theorem foldl_classifyStep_stable (ks : List String) (acc : Dict × PState × Bool × Bool)
    (k : String) (hd : disk_key_match k = false) (hn : net_key_match k = false)
    (hc : k ≠ "cpu") :
    aget k (ks.foldl classifyStep acc).1 = aget k acc.1 := by
  induction ks generalizing acc with
  | nil => rfl
  | cons j rest ih =>
    rw [List.foldl_cons, ih (classifyStep acc j), classifyStep_stable acc j k hd hn hc]

theorem attachLists_fst_aget (r : Dict × PState × Bool × Bool) (k : String)
    (h1 : k ≠ "disks") (h2 : k ≠ "nets") :
    aget k (attachLists r).1 = aget k r.1 := by
  obtain ⟨vm, st, dsw, nsw⟩ := r
  cases dsw <;> cases nsw <;>
    simp [attachLists, aget_ainsert_ne h1, aget_ainsert_ne h2]

theorem classifyVm_aget_stable (st : PState) (node : String) (vm cfg : Dict) (k : String)
    (hd : disk_key_match k = false) (hn : net_key_match k = false) (hc : k ≠ "cpu")
    (hdk : k ≠ "disks") (hnk : k ≠ "nets") :
    aget k (classifyVm st node vm cfg).1 =
      aget k (ainsert "node" (Value.str node) (aupdate vm cfg)) := by
  show aget k (attachLists
      (((ainsert "node" (Value.str node) (aupdate vm cfg)).map Prod.fst).foldl classifyStep
        (ainsert "node" (Value.str node) (aupdate vm cfg), st, false, false))).1 =
    aget k (ainsert "node" (Value.str node) (aupdate vm cfg))
  rw [attachLists_fst_aget _ k hdk hnk, foldl_classifyStep_stable _ _ k hd hn hc]

/-! ### C9: leak-free accumulation -/

theorem classifyStep_inv (acc : Dict × PState × Bool × Bool) (j : String)
    (h1 : acc.2.2.1 = false → acc.2.1.disks = [])
    (h2 : acc.2.2.2 = false → acc.2.1.nets = []) :
    ((classifyStep acc j).2.2.1 = false → (classifyStep acc j).2.1.disks = []) ∧
    ((classifyStep acc j).2.2.2 = false → (classifyStep acc j).2.1.nets = []) := by
  obtain ⟨vm, st, dsw, nsw⟩ := acc
  rcases hg : aget j vm with _ | val
  · rw [classifyStep_none vm st dsw nsw j hg]
    exact ⟨h1, h2⟩
  · cases hjd : disk_key_match j with
    | true =>
      rw [classifyStep_disk vm st dsw nsw j val hg hjd]
      constructor
      · intro h
        cases h
      · intro h
        exact h2 h
    | false =>
      cases hjn : net_key_match j with
      | true =>
        rw [classifyStep_net vm st dsw nsw j val hg hjd hjn]
        constructor
        · intro h
          exact h1 h
        · intro h
          cases h
      | false =>
        cases hjc : (j == "cpu" && isNumericVal val) with
        | true =>
          rw [classifyStep_cpu vm st dsw nsw j val hg hjd hjn hjc]
          exact ⟨h1, h2⟩
        | false =>
          rw [classifyStep_skip vm st dsw nsw j val hg hjd hjn hjc]
          exact ⟨h1, h2⟩

theorem foldl_classifyStep_inv (ks : List String) (acc : Dict × PState × Bool × Bool)
    (h1 : acc.2.2.1 = false → acc.2.1.disks = [])
    (h2 : acc.2.2.2 = false → acc.2.1.nets = []) :
    ((ks.foldl classifyStep acc).2.2.1 = false → (ks.foldl classifyStep acc).2.1.disks = []) ∧
    ((ks.foldl classifyStep acc).2.2.2 = false → (ks.foldl classifyStep acc).2.1.nets = []) := by
  induction ks generalizing acc with
  | nil => exact ⟨h1, h2⟩
  | cons j rest ih =>
    rw [List.foldl_cons]
    obtain ⟨g1, g2⟩ := classifyStep_inv acc j h1 h2
    exact ih (classifyStep acc j) g1 g2

theorem classifyVm_snd_empty (st : PState) (node : String) (vm cfg : Dict)
    (hd : st.disks = []) (hn : st.nets = []) :
    (classifyVm st node vm cfg).2 = PState.mk [] [] := by
  show (attachLists
      (((ainsert "node" (Value.str node) (aupdate vm cfg)).map Prod.fst).foldl classifyStep
        (ainsert "node" (Value.str node) (aupdate vm cfg), st, false, false))).2 = PState.mk [] []
  obtain ⟨g1, g2⟩ := foldl_classifyStep_inv
    ((ainsert "node" (Value.str node) (aupdate vm cfg)).map Prod.fst)
    (ainsert "node" (Value.str node) (aupdate vm cfg), st, false, false)
    (fun _ => hd) (fun _ => hn)
  rcases hres : ((ainsert "node" (Value.str node) (aupdate vm cfg)).map Prod.fst).foldl
      classifyStep (ainsert "node" (Value.str node) (aupdate vm cfg), st, false, false) with
    ⟨vmx, stx, dswx, nswx⟩
  rw [hres] at g1 g2
  obtain ⟨dsx, nsx⟩ := stx
  cases dswx <;> cases nswx <;>
    simp_all [attachLists]

/-- C9: the `disks` / `nets` accumulators never leak across VMs: starting
from empty accumulators, each VM's classification ends with both
accumulators empty again, so a second VM processed with the state left by
the first is classified exactly as if it started fresh. -/
theorem claim_C9_no_leak (node1 node2 : String) (vm1 cfg1 vm2 cfg2 : Dict) :
    (classifyVm (PState.mk [] []) node1 vm1 cfg1).2 = PState.mk [] [] ∧
    classifyVm (classifyVm (PState.mk [] []) node1 vm1 cfg1).2 node2 vm2 cfg2 =
      classifyVm (PState.mk [] []) node2 vm2 cfg2 := by
  have h := classifyVm_snd_empty (PState.mk [] []) node1 vm1 cfg1 rfl rfl
  exact ⟨h, by rw [h]⟩

/-! ### C7: pure passthrough when no slot key is present -/

theorem classifyStep_no_match (acc : Dict × PState × Bool × Bool) (j : String)
    (hjd : disk_key_match j = false) (hjn : net_key_match j = false) :
    classifyStep acc j = (cpuStep acc.1 j, acc.2) := by
  obtain ⟨vm, st, dsw, nsw⟩ := acc
  rcases hg : aget j vm with _ | val
  · rw [classifyStep_none vm st dsw nsw j hg]
    simp [cpuStep, hg]
  · cases hjc : (j == "cpu" && isNumericVal val) with
    | true =>
      rw [classifyStep_cpu vm st dsw nsw j val hg hjd hjn hjc]
      simp [cpuStep, hg, hjc]
    | false =>
      rw [classifyStep_skip vm st dsw nsw j val hg hjd hjn hjc]
      simp [cpuStep, hg, hjc]

theorem foldl_no_match (ks : List String) (vm : Dict) (st : PState) (dsw nsw : Bool)
    (h : ∀ j ∈ ks, disk_key_match j = false ∧ net_key_match j = false) :
    ks.foldl classifyStep (vm, st, dsw, nsw) = (ks.foldl cpuStep vm, st, dsw, nsw) := by
  induction ks generalizing vm with
  | nil => rfl
  | cons j rest ih =>
    obtain ⟨hjd, hjn⟩ := h j (List.mem_cons_self j rest)
    rw [List.foldl_cons, List.foldl_cons, classifyStep_no_match (vm, st, dsw, nsw) j hjd hjn]
    exact ih (cpuStep vm j) (fun j2 hj2 => h j2 (List.mem_cons_of_mem j hj2))

theorem cpuStep_ne (d : Dict) (j : String) (hj : j ≠ "cpu") : cpuStep d j = d := by
  rcases hg : aget j d with _ | val
  · simp [cpuStep, hg]
  · simp [cpuStep, hg, hj]

theorem cpuFold_aget_ne (ks : List String) (d : Dict) (k : String) (hk : k ≠ "cpu") :
    aget k (ks.foldl cpuStep d) = aget k d := by
  induction ks generalizing d with
  | nil => rfl
  | cons j rest ih =>
    rw [List.foldl_cons, ih (cpuStep d j)]
    rcases hg : aget j d with _ | val
    · simp [cpuStep, hg]
    · cases hjc : (j == "cpu" && isNumericVal val) with
      | false => simp [cpuStep, hg, hjc]
      | true => simp [cpuStep, hg, hjc, aget_ainsert_ne hk]

theorem cpuFold_id_of_none (ks : List String) (d : Dict) (h : aget "cpu" d = none) :
    ks.foldl cpuStep d = d := by
  induction ks with
  | nil => rfl
  | cons j rest ih =>
    have hstep : cpuStep d j = d := by
      rcases hg : aget j d with _ | val
      · simp [cpuStep, hg]
      · cases hjc : (j == "cpu" && isNumericVal val) with
        | false => simp [cpuStep, hg, hjc]
        | true =>
          rw [Bool.and_eq_true] at hjc
          have hj : j = "cpu" := by simpa using hjc.1
          rw [hj] at hg
          rw [hg] at h
          cases h
    rw [List.foldl_cons, hstep, ih]

theorem cpuFold_id_of_nonnum (ks : List String) (d : Dict) {v : Value}
    (h : aget "cpu" d = some v) (hv : isNumericVal v = false) :
    ks.foldl cpuStep d = d := by
  induction ks with
  | nil => rfl
  | cons j rest ih =>
    have hstep : cpuStep d j = d := by
      rcases hg : aget j d with _ | val
      · simp [cpuStep, hg]
      · cases hjc : (j == "cpu" && isNumericVal val) with
        | false => simp [cpuStep, hg, hjc]
        | true =>
          rw [Bool.and_eq_true] at hjc
          have hj : j = "cpu" := by simpa using hjc.1
          rw [hj] at hg
          rw [hg] at h
          cases h
          rw [hjc.2] at hv
          cases hv
    rw [List.foldl_cons, hstep, ih]

theorem cpuFold_default (ks : List String) (d : Dict)
    (h : aget "cpu" d = some (Value.str "default")) :
    aget "cpu" (ks.foldl cpuStep d) = some (Value.str "default") := by
  rw [cpuFold_id_of_nonnum ks d h rfl, h]

theorem cpuFold_num (ks : List String) (d : Dict) {v : Value}
    (h : aget "cpu" d = some v) (hv : isNumericVal v = true) (hmem : "cpu" ∈ ks) :
    aget "cpu" (ks.foldl cpuStep d) = some (Value.str "default") := by
  induction ks generalizing d with
  | nil => cases hmem
  | cons j rest ih =>
    rw [List.foldl_cons]
    by_cases hj : j = "cpu"
    · subst hj
      have hstep : cpuStep d "cpu" = ainsert "cpu" (Value.str "default") d := by
        simp [cpuStep, h, hv]
      rw [hstep]
      exact cpuFold_default rest _ (aget_ainsert_self "cpu" (Value.str "default") d)
    · rw [cpuStep_ne d j hj]
      have hmem2 : "cpu" ∈ rest := by
        rcases List.mem_cons.mp hmem with e | e
        · exact absurd e.symm hj
        · exact e
      exact ih d h hmem2

theorem attachLists_false (vm : Dict) (st : PState) :
    attachLists (vm, st, false, false) = (vm, st) := rfl

/-- C7: for every VM whose merged configuration contains no disk-slot or
network-slot key (and no literal `disks` / `nets` keys), the output
record gets no `disks` / `nets` fields, the accumulators are untouched,
any other configuration key `k` (other than the injected `node` and the
special-cased `cpu`) passes through with its value unchanged, and a
`cpu` key is replaced by the string `"default"` exactly when its value
is numeric. -/
theorem claim_C7_passthrough (st : PState) (node : String) (vm cfg : Dict) (k : String)
    (val : Value)
    (hno : ∀ j ∈ vm.map Prod.fst ++ cfg.map Prod.fst,
      disk_key_match j = false ∧ net_key_match j = false)
    (hdnm : "disks" ∉ vm.map Prod.fst ++ cfg.map Prod.fst)
    (hnnm : "nets" ∉ vm.map Prod.fst ++ cfg.map Prod.fst)
    (hknode : k ≠ "node") (hkcpu : k ≠ "cpu")
    (hnd : (cfg.map Prod.fst).Nodup)
    (hkv : aget k cfg = some val) :
    (classifyVm st node vm cfg).2 = st ∧
    aget "disks" (classifyVm st node vm cfg).1 = none ∧
    aget "nets" (classifyVm st node vm cfg).1 = none ∧
    aget k (classifyVm st node vm cfg).1 = some val ∧
    (∀ cv, aget "cpu" (aupdate vm cfg) = some cv →
      aget "cpu" (classifyVm st node vm cfg).1 =
        some (if isNumericVal cv then Value.str "default" else cv)) := by
  have hkeys : ∀ j ∈ (ainsert "node" (Value.str node) (aupdate vm cfg)).map Prod.fst,
      disk_key_match j = false ∧ net_key_match j = false := by
    intro j hj
    rcases mem_keys_ainsert hj with e | hj2
    · subst e
      exact ⟨rfl, rfl⟩
    · rcases mem_keys_aupdate hj2 with h3 | h3
      · exact hno j (List.mem_append_left _ h3)
      · exact hno j (List.mem_append_right _ h3)
  have hcl : classifyVm st node vm cfg =
      (((ainsert "node" (Value.str node) (aupdate vm cfg)).map Prod.fst).foldl cpuStep
        (ainsert "node" (Value.str node) (aupdate vm cfg)), st) := by
    show attachLists
      (((ainsert "node" (Value.str node) (aupdate vm cfg)).map Prod.fst).foldl classifyStep
        (ainsert "node" (Value.str node) (aupdate vm cfg), st, false, false)) = _
    rw [foldl_no_match _ _ _ _ _ hkeys, attachLists_false]
  have hgd : aget "disks" (aupdate vm cfg) = none := by
    apply aget_none_of_not_mem
    intro hmem
    rcases mem_keys_aupdate hmem with h3 | h3
    · exact hdnm (List.mem_append_left _ h3)
    · exact hdnm (List.mem_append_right _ h3)
  have hgn : aget "nets" (aupdate vm cfg) = none := by
    apply aget_none_of_not_mem
    intro hmem
    rcases mem_keys_aupdate hmem with h3 | h3
    · exact hnnm (List.mem_append_left _ h3)
    · exact hnnm (List.mem_append_right _ h3)
  refine ⟨by rw [hcl], ?_, ?_, ?_, ?_⟩
  · rw [hcl]
    show aget "disks" (List.foldl cpuStep _ _) = none
    rw [cpuFold_aget_ne _ _ "disks" (by decide),
      aget_ainsert_ne (by decide) (Value.str node) (aupdate vm cfg), hgd]
  · rw [hcl]
    show aget "nets" (List.foldl cpuStep _ _) = none
    rw [cpuFold_aget_ne _ _ "nets" (by decide),
      aget_ainsert_ne (by decide) (Value.str node) (aupdate vm cfg), hgn]
  · rw [hcl]
    show aget k (List.foldl cpuStep _ _) = some val
    rw [cpuFold_aget_ne _ _ k hkcpu,
      aget_ainsert_ne hknode (Value.str node) (aupdate vm cfg)]
    exact aget_aupdate_some hnd hkv _
  · intro cv hcv
    have hcv1 : aget "cpu" (ainsert "node" (Value.str node) (aupdate vm cfg)) = some cv := by
      rw [aget_ainsert_ne (by decide) (Value.str node) (aupdate vm cfg)]
      exact hcv
    rw [hcl]
    show aget "cpu" (List.foldl cpuStep _ _) = _
    cases hnum : isNumericVal cv with
    | false =>
      rw [cpuFold_id_of_nonnum _ _ hcv1 hnum, hcv1]
      simp [hnum]
    | true =>
      rw [cpuFold_num _ _ hcv1 hnum (aget_some_mem hcv1)]
      simp [hnum]

/-- C7 witness. -/
theorem claim_C7_witness :
    (classifyVm (PState.mk [] []) "node01" [("vmid", Value.num 100)]
        [("cores", Value.num 8), ("cpu", Value.num 1)]).2 = PState.mk [] [] ∧
    aget "disks" (classifyVm (PState.mk [] []) "node01" [("vmid", Value.num 100)]
        [("cores", Value.num 8), ("cpu", Value.num 1)]).1 = none ∧
    aget "nets" (classifyVm (PState.mk [] []) "node01" [("vmid", Value.num 100)]
        [("cores", Value.num 8), ("cpu", Value.num 1)]).1 = none ∧
    aget "cores" (classifyVm (PState.mk [] []) "node01" [("vmid", Value.num 100)]
        [("cores", Value.num 8), ("cpu", Value.num 1)]).1 = some (Value.num 8) ∧
    aget "cpu" (classifyVm (PState.mk [] []) "node01" [("vmid", Value.num 100)]
        [("cores", Value.num 8), ("cpu", Value.num 1)]).1 = some (Value.str "default") := by
  have H := claim_C7_passthrough (PState.mk [] []) "node01" [("vmid", Value.num 100)]
    [("cores", Value.num 8), ("cpu", Value.num 1)] "cores" (Value.num 8)
    (by decide) (by decide) (by decide) (by decide) (by decide) (by decide) (by decide)
  exact ⟨H.1, H.2.1, H.2.2.1, H.2.2.2.1, H.2.2.2.2 (Value.num 1) (by decide)⟩

/-! ### C10: the shape of returned records -/

theorem classifyVm_reserved (st : PState) (nd : String) (vm cfg : Dict) (n : Int)
    (hvm : aget "vmid" vm = some (Value.num n))
    (htp : aget "type" vm = some (Value.str "qemu"))
    (hcv : aget "vmid" cfg = none) (hct : aget "type" cfg = none) :
    aget "vmid" (classifyVm st nd vm cfg).1 = some (Value.num n) ∧
    aget "type" (classifyVm st nd vm cfg).1 = some (Value.str "qemu") ∧
    aget "node" (classifyVm st nd vm cfg).1 = some (Value.str nd) := by
  refine ⟨?_, ?_, ?_⟩
  · rw [classifyVm_aget_stable st nd vm cfg "vmid" (by decide) (by decide) (by decide)
      (by decide) (by decide)]
    rw [aget_ainsert_ne (by decide) (Value.str nd) (aupdate vm cfg),
      aget_aupdate_none hcv vm, hvm]
  · rw [classifyVm_aget_stable st nd vm cfg "type" (by decide) (by decide) (by decide)
      (by decide) (by decide)]
    rw [aget_ainsert_ne (by decide) (Value.str nd) (aupdate vm cfg),
      aget_aupdate_none hct vm, htp]
  · rw [classifyVm_aget_stable st nd vm cfg "node" (by decide) (by decide) (by decide)
      (by decide) (by decide)]
    rw [aget_ainsert_self "node" (Value.str nd) (aupdate vm cfg)]

theorem qemuLoop_records (c : Cluster) (node : Option String) (lst : List Dict) (st : PState)
    (res : List Dict × PState) (hok : qemuLoop c node lst st = Except.ok res)
    (hcfg : ∀ nd v d, c.config nd v = some d →
      aget "vmid" d = none ∧ aget "type" d = none) :
    ∀ vm ∈ res.1, vmidIsInt vm = true ∧ aget "type" vm = some (Value.str "qemu") ∧
      nodeIsStr vm = true := by
  induction lst generalizing st res with
  | nil =>
    cases hok
    intro vm hvm
    simp at hvm
  | cons vm0 rest ih =>
    simp only [qemuLoop] at hok
    split at hok
    · exact Except.noConfusion hok
    · rename_i v h1
      split at hok
      · exact Except.noConfusion hok
      · rename_i n h2
        split at hok
        · exact Except.noConfusion hok
        · rename_i rec st2 h3
          split at hok
          · exact Except.noConfusion hok
          · rename_i recs st3 h4
            injection hok with h5
            intro vm hvm
            rw [← h5] at hvm
            rcases List.mem_cons.mp hvm with e | e
            · subst e
              have hvm' : aget "vmid"
                  (ainsert "type" (Value.str "qemu") (ainsert "vmid" (Value.num n) vm0)) =
                  some (Value.num n) := by
                rw [aget_ainsert_ne (by decide), aget_ainsert_self]
              have htp' : aget "type"
                  (ainsert "type" (Value.str "qemu") (ainsert "vmid" (Value.num n) vm0)) =
                  some (Value.str "qemu") :=
                aget_ainsert_self "type" (Value.str "qemu") _
              unfold get_vm_configs at h3
              split at h3
              · rename_i node0 x0 nd n2 hvm2
                have hnn : some (Value.num n) = some (Value.num n2) := hvm'.symm.trans hvm2
                injection hnn with hnn2
                injection hnn2 with hnn3
                subst hnn3
                split at h3
                · rename_i cfgd h5c
                  injection h3 with h6
                  obtain ⟨hr1, hr2, hr3⟩ := classifyVm_reserved st nd
                    (ainsert "type" (Value.str "qemu") (ainsert "vmid" (Value.num n) vm0))
                    cfgd n hvm' htp' (hcfg nd n cfgd h5c).1 (hcfg nd n cfgd h5c).2
                  have hrec : vm = (classifyVm st nd
                      (ainsert "type" (Value.str "qemu") (ainsert "vmid" (Value.num n) vm0))
                      cfgd).1 :=
                    (congrArg Prod.fst h6).symm
                  rw [hrec]
                  refine ⟨?_, hr2, ?_⟩
                  · simp [vmidIsInt, hr1]
                  · simp [nodeIsStr, hr3]
                · exact Except.noConfusion h3
              · exact Except.noConfusion h3
            · exact ih st2 (recs, st3) h4 vm e

theorem lxcLoop_records (lst : List Dict) (res : List Dict)
    (hok : lxcLoop lst = Except.ok res) : ∀ vm ∈ res, vmidIsInt vm = true := by
  induction lst generalizing res with
  | nil =>
    cases hok
    intro vm hvm
    simp at hvm
  | cons vm0 rest ih =>
    simp only [lxcLoop] at hok
    split at hok
    · exact Except.noConfusion hok
    · rename_i v h1
      split at hok
      · exact Except.noConfusion hok
      · rename_i n h2
        rcases h3 : lxcLoop rest with e | recs
        · rw [h3] at hok
          exact Except.noConfusion hok
        · rw [h3] at hok
          simp only [Except.map] at hok
          injection hok with h5
          intro vm hvm
          rw [← h5] at hvm
          rcases List.mem_cons.mp hvm with e | e
          · subst e
            simp [vmidIsInt, aget_ainsert_self]
          · exact ih recs h3 vm e

/-- C10 amended: QEMU-path records always carry an integer `vmid`, a
`type` field equal to `"qemu"`, and a string `node` field (given that
config payloads carry no `vmid` / `type` keys of their own); LXC-path
records always carry an integer `vmid` — but the LXC path never sets a
`type` field, so an LXC record has one only if the listing API supplied
it. -/
theorem claim_C10_amended (c : Cluster) (st : PState) (node1 node2 : Option String)
    (vmk1 vmk2 : Option Int) (vms : List Dict) (st2 : PState) (lvms : List Dict)
    (hcfg : ∀ nd v d, c.config nd v = some d →
      aget "vmid" d = none ∧ aget "type" d = none)
    (hq : get_qemu_vms c st node1 vmk1 = Except.ok (vms, st2))
    (hl : get_lxc_vms c node2 vmk2 = Except.ok lvms) :
    (∀ vm ∈ vms, vmidIsInt vm = true ∧ aget "type" vm = some (Value.str "qemu") ∧
      nodeIsStr vm = true) ∧
    (∀ vm ∈ lvms, vmidIsInt vm = true) := by
  constructor
  · unfold get_qemu_vms at hq
    split at hq
    · exact Except.noConfusion hq
    · rename_i vmlist h1
      split at hq
      · exact Except.noConfusion hq
      · rename_i vms0 st0 h2
        have hrec := qemuLoop_records c node1 vmlist st (vms0, st0) h2 hcfg
        split at hq
        · injection hq with h5
          have h6 : vms0 = vms := congrArg Prod.fst h5
          intro vm hvm
          rw [← h6] at hvm
          exact hrec vm hvm
        · rename_i v
          injection hq with h5
          have h6 : vms0.filter (fun vm => aget "vmid" vm == some (Value.num v)) = vms :=
            congrArg Prod.fst h5
          intro vm hvm
          rw [← h6] at hvm
          exact hrec vm (List.mem_of_mem_filter hvm)
  · unfold get_lxc_vms at hl
    split at hl
    · exact Except.noConfusion hl
    · rename_i vms0 h1
      split at hl
      · exact Except.noConfusion hl
      · rename_i lvms0 h2
        have hrec := lxcLoop_records vms0 lvms0 h2
        split at hl
        · injection hl with h5
          intro vm hvm
          rw [← h5] at hvm
          exact hrec vm hvm
        · rename_i v
          injection hl with h5
          intro vm hvm
          rw [← h5] at hvm
          exact hrec vm (List.mem_of_mem_filter hvm)

/-- C10 counterexample: the LXC listing path does not add a `type`
field: on a cluster whose node lists container 101 (with no `type` in
the API payload), the record the module returns has no `type` at all —
so not every returned record carries `type ∈ {"qemu", "lxc"}`. -/
theorem claim_C10_counterexample :
    pmain lxcProbeCluster (Params.mk (some "node01") "lxc" none none) =
      MResult.ok [[("vmid", Value.num 101), ("status", Value.str "running")]] ∧
    aget "type" [("vmid", Value.num 101), ("status", Value.str "running")] = none := by
  refine ⟨rfl, rfl⟩

/-- C10 witness. -/
theorem claim_C10_witness :
    vmidIsInt [("vmid", Value.num 100), ("status", Value.str "running"),
      ("type", Value.str "qemu"), ("cores", Value.num 4), ("node", Value.str "node01")] =
      true ∧
    aget "type" [("vmid", Value.num 100), ("status", Value.str "running"),
      ("type", Value.str "qemu"), ("cores", Value.num 4), ("node", Value.str "node01")] =
      some (Value.str "qemu") ∧
    nodeIsStr [("vmid", Value.num 100), ("status", Value.str "running"),
      ("type", Value.str "qemu"), ("cores", Value.num 4), ("node", Value.str "node01")] =
      true ∧
    vmidIsInt [("vmid", Value.num 101)] = true := by
  have hcfg : ∀ nd v d, mixedCluster.config nd v = some d →
      aget "vmid" d = none ∧ aget "type" d = none := by
    intro nd v d h
    have he : mixedCluster.config nd v =
        (if nd == "node01" && v == 100 then some [("cores", Value.num 4)] else none) := rfl
    rw [he] at h
    split at h
    · cases h
      exact ⟨rfl, rfl⟩
    · cases h
  have H := claim_C10_amended mixedCluster (PState.mk [] []) (some "node01") (some "node01")
    none none
    [[("vmid", Value.num 100), ("status", Value.str "running"),
      ("type", Value.str "qemu"), ("cores", Value.num 4), ("node", Value.str "node01")]]
    (PState.mk [] []) [[("vmid", Value.num 101)]] hcfg rfl rfl
  refine ⟨?_, ?_, ?_, ?_⟩
  · exact (H.1 _ (by simp)).1
  · exact (H.1 _ (by simp)).2.1
  · exact (H.1 _ (by simp)).2.2
  · exact H.2 _ (by simp)
